import Mathlib

/-
Shallow embedding of src/plugin.cpp (GraphSlick IDA plugin).

The embedding translates the data model and the operations of the
Grouped Graph Coloring and Selection Engine:
  - the group data model (nodedef_t, groupdef_t, groupman_t) as read
    through the usage in plugin.cpp;
  - std::map style associative containers as insertion ordered
    association lists with overwrite on assignment;
  - the color generator (colorgen.h is not part of src/, so it is
    modelled from the specification, section 4.1);
  - the graph data context grdata_t with its refresh and destroy
    callbacks (plugin.cpp lines 54-170);
  - the chooser gschooser_t: row building in load_file (lines 642-689),
    the sizer (lines 339-342) and the enter handler (lines 466-553).
-/

/-- One basic block: plugin.cpp reads nd.nid, nd.start, nd.end from
groupman.h. The field end is renamed end_ea because end is a keyword. -/
structure nodedef_t where
  nid : Int
  start : Nat
  end_ea : Nat
  deriving DecidableEq, Inhabited

/-- nodedef_list_t: ordered sequence of node definitions. -/
abbrev nodedef_list_t := List nodedef_t

/-- nodegroup_listp_t: ordered sequence of node definition lists. -/
abbrev nodegroup_listp_t := List nodedef_list_t

/-- groupdef_t: a named logical grouping, fields as used in plugin.cpp
(gd.id, gd.groupname, gd.nodegroups). -/
structure groupdef_t where
  id : String
  groupname : String
  nodegroups : nodegroup_listp_t
  deriving DecidableEq, Inhabited

/-- groupman_t: the loaded group file, exposing get_source_file and
get_groups in plugin.cpp; modelled as the record of both. -/
structure groupman_t where
  source_file : String
  groups : List groupdef_t
  deriving DecidableEq, Inhabited

/-- bgcolor_t: a background color value; 0 is the exhausted sentinel of
the color variant generator. -/
abbrev bgcolor_t := Nat

/-- Lookup in an association list keyed by node id, the semantics of
std::map find. -/
def assocFind {β : Type} : List (Int × β) → Int → Option β
  | [], _ => none
  | (k1, v) :: rest, k => if k1 = k then some v else assocFind rest k

/-- Assignment m[k] = v in an association list, the semantics of
std::map operator[]: overwrite the entry if the key exists, otherwise
insert a new entry. -/
def assocSet {β : Type} : List (Int × β) → Int → β → List (Int × β)
  | [], k, v => [(k, v)]
  | (k1, v1) :: rest, k, v =>
      if k1 = k then (k, v) :: rest else (k1, v1) :: assocSet rest k v

/-- A sequence of map assignments m[k] = v performed in order. -/
def applyAssigns {β : Type} : List (Int × β) → List (Int × β) → List (Int × β)
  | m, [] => m
  | m, (k, v) :: rest => applyAssigns (assocSet m k v) rest

/-- ncolormap_t = std::map from node id to bgcolor_t (plugin.cpp line 48). -/
abbrev ncolormap_t := List (Int × bgcolor_t)

/-- gnodemap_t: node id to node content (the text served to the drawing
surface); the container type lives in util.h, used as a map here. -/
abbrev gnodemap_t := List (Int × String)

/-- Modelled from the spec: colorgen.h is not under src/. ColorCycle
variant generator state (section 4.1): a base color with a fixed number
of variants, of which some are already used. get_color returns the next
variant or the sentinel 0 when the base is exhausted. -/
structure colorvargen_t where
  base : Nat
  total : Nat
  used : Nat
  deriving DecidableEq, Inhabited

/-- Modelled from the spec: colorgen.h is not under src/. Returns the
next shade of the current base, or the sentinel 0 when no shade is
left; shades are encoded injectively and are never 0. -/
def colorvargen_t.get_color (cv : colorvargen_t) : bgcolor_t × colorvargen_t :=
  if cv.used < cv.total then
    (cv.base * cv.total + cv.used + 1, { cv with used := cv.used + 1 })
  else
    (0, cv)

/-- Modelled from the spec: colorgen.h is not under src/. ColorCycle
generator state (section 3): a finite palette of bases, each with the
same number of variants, and the index of the next unused base. -/
structure colorgen_t where
  bases : Nat
  variants : Nat
  base_idx : Nat
  deriving DecidableEq, Inhabited

/-- Modelled from the spec: colorgen.h is not under src/. get_colorvar
advances to a new base color and resets the variant generator; returns
false when all bases have been used in this cycle, leaving the variant
generator untouched. -/
def colorgen_t.get_colorvar (cg : colorgen_t) (cv : colorvargen_t) :
    Bool × colorgen_t × colorvargen_t :=
  if cg.base_idx < cg.bases then
    (true, { cg with base_idx := cg.base_idx + 1 },
     { base := cg.base_idx, total := cg.variants, used := 0 })
  else
    (false, cg, cv)

/-- Modelled from the spec: colorgen.h is not under src/. rewind resets
the cycle to the first base; it never fails. -/
def colorgen_t.rewind (cg : colorgen_t) : colorgen_t :=
  { cg with base_idx := 0 }

/-- A freshly constructed colorgen_t as in the DECL_CG macro
(plugin.cpp lines 433-437): full palette, nothing used. The palette
dimensions are the configuration of colorgen.h. -/
def fresh_cg (bases variants : Nat) : colorgen_t :=
  { bases := bases, variants := variants, base_idx := 0 }

/-- A freshly constructed colorvargen_t as in the DECL_CG macro: no
variants available until get_colorvar fills it. -/
def fresh_cv : colorvargen_t :=
  { base := 0, total := 0, used := 0 }

/-- The loop of gschooser_t::get_color_anyway (plugin.cpp lines
442-461), with an explicit fuel counting loop iterations: pull a
variant; on the sentinel pick a new base, rewinding the cycle when the
bases are exhausted, and retry. none means the loop did not finish
within the given number of iterations. -/
def get_color_anyway_fuel :
    Nat → colorgen_t → colorvargen_t →
    Option (bgcolor_t × colorgen_t × colorvargen_t)
  | 0, _, _ => none
  | Nat.succ fuel, cg, cv =>
      let r := cv.get_color
      if r.1 ≠ 0 then some (r.1, cg, r.2)
      else
        let q := cg.get_colorvar r.2
        if q.1 then get_color_anyway_fuel fuel q.2.1 q.2.2
        else
          let q2 := (q.2.1.rewind).get_colorvar r.2
          get_color_anyway_fuel fuel q2.2.1 q2.2.2

/-- gschooser_t::get_color_anyway. Under the palette invariant of the
spec (section 4.1: at least one base with at least one variant,
guaranteed by construction of the palette) the loop terminates within
two iterations, so its result is the fuel 2 result; with an empty
palette the loop would not terminate and the fallback branch is never
reached in intended configurations. -/
def get_color_anyway (cg : colorgen_t) (cv : colorvargen_t) :
    bgcolor_t × colorgen_t × colorvargen_t :=
  match get_color_anyway_fuel 2 cg cv with
  | some r => r
  | none => (0, cg, cv)

/-- grdata_t::refresh_modes_e (plugin.cpp lines 68-72). -/
inductive refresh_modes_e
  | rfm_soft
  | rfm_rebuild
  deriving DecidableEq, Inhabited

/-- grdata_t (plugin.cpp lines 54-170): per function graph context. The
pointers gv (graph viewer) and form are modelled by their nullness; the
gm and parent_ref pointers are not needed by the modelled operations
(parent_ref is handled explicitly in the destroy event below). -/
structure grdata_t where
  node_map : gnodemap_t
  ea : Nat
  cur_node : Int
  gv : Bool
  sel_nodes : ncolormap_t
  form : Bool
  refresh_mode : refresh_modes_e
  deriving DecidableEq, Inhabited

/-- The grcode_user_refresh case of grdata_t::gr_callback (plugin.cpp
lines 126-137): when node_map is empty or the refresh mode is rebuild,
the external converter func_to_mgraph (util.h, not under src/; spec
section 6: build(function_address) replacing node_map entirely) is
invoked for the owner function; conv is that external converter.
Nothing else in the context is touched. -/
def gr_refresh (conv : Nat → gnodemap_t) (g : grdata_t) : grdata_t :=
  if g.node_map.isEmpty ∨ g.refresh_mode = refresh_modes_e.rfm_rebuild then
    { g with node_map := conv g.ea }
  else
    g

/-- The grcode_destroyed case of grdata_t::gr_callback (plugin.cpp
lines 155-166). ud is the grdata_t allocation the callback dispatches
on (none = already released, as after delete this). parent_slot is
none when parent_ref is NULL, otherwise some of the owner's current
back-reference. The result is none when the dispatch lands on a
released allocation (use after free); otherwise it is the field state
of the object at the moment it releases itself, paired with the
owner's back-reference after the event. -/
def gr_destroyed_event (ud : Option grdata_t)
    (parent_slot : Option (Option grdata_t)) :
    Option (grdata_t × Option (Option grdata_t)) :=
  match ud with
  | none => none
  | some g =>
      some ({ g with gv := false, form := false },
            parent_slot.map (fun _ => none))

/-- chooser_node_type_t (plugin.cpp lines 228-233). -/
inductive chooser_node_type_t
  | chnt_gm
  | chnt_gd
  | chnt_nl
  deriving DecidableEq, Inhabited

/-- chooser_node_t (plugin.cpp lines 236-252): one row of the chooser;
the pointers are modelled as optional values (NULL = none). -/
structure chooser_node_t where
  type : chooser_node_type_t
  gm : Option groupman_t
  gd : Option groupdef_t
  ngl : Option nodegroup_listp_t
  nl : Option nodedef_list_t
  deriving DecidableEq, Inhabited

/-- The state of the gschooser_t gm pointer: NULL, a valid loaded tree,
or a dangling pointer to a released tree (as left by the failure path
of load_file, which deletes the allocation without nulling the
member). -/
inductive gm_ptr
  | null
  | valid (t : groupman_t)
  | dangling
  deriving DecidableEq, Inhabited

/-- The mutable state of gschooser_t that the modelled operations
touch: the row vector ch_nodes, the graph context pointer gr and the
group manager pointer gm. -/
structure gschooser_state where
  ch_nodes : List chooser_node_t
  gr : Option grdata_t
  gm : gm_ptr
  deriving DecidableEq, Inhabited

/-- gschooser_t::sizer (plugin.cpp lines 339-342): the row count. -/
def sizer (s : gschooser_state) : Nat :=
  s.ch_nodes.length

/-- The first level row pushed by load_file (plugin.cpp lines 654-657). -/
def file_row (t : groupman_t) : chooser_node_t :=
  { type := chooser_node_type_t.chnt_gm, gm := some t,
    gd := none, ngl := none, nl := none }

/-- The second level row pushed by load_file (plugin.cpp lines 665-671). -/
def gd_row (t : groupman_t) (gd : groupdef_t) : chooser_node_t :=
  { type := chooser_node_type_t.chnt_gd, gm := some t,
    gd := some gd, ngl := some gd.nodegroups, nl := none }

/-- The third level row pushed by load_file (plugin.cpp lines 678-685). -/
def nl_row (t : groupman_t) (gd : groupdef_t) (nl : nodedef_list_t) :
    chooser_node_t :=
  { type := chooser_node_type_t.chnt_nl, gm := some t,
    gd := some gd, ngl := some gd.nodegroups, nl := some nl }

/-- gschooser_t::load_file (plugin.cpp lines 642-689). parse is the
external group file loader (groupman.h, spec section 6). The code
first deletes the previous group manager, allocates a new one and
parses into it; on failure it prints a message, deletes the new
allocation and returns false, leaving the member pointer dangling and
the row vector untouched. On success it pushes the file row and then,
for each group definition, one group row followed by one row per node
definition list, appending to the existing row vector (ch_nodes is
never cleared). -/
def load_file (parse : String → Option groupman_t)
    (s : gschooser_state) (filename : String) : gschooser_state × Bool :=
  match parse filename with
  | none => ({ s with gm := gm_ptr.dangling }, false)
  | some t =>
      let rows1 := s.ch_nodes ++ [file_row t]
      let rows2 := t.groups.foldl
        (fun acc gd =>
          gd.nodegroups.foldl
            (fun acc2 nl => acc2 ++ [nl_row t gd nl])
            (acc ++ [gd_row t gd]))
        rows1
      ({ s with gm := gm_ptr.valid t, ch_nodes := rows2 }, true)

/-- The rows of one group definition as the spec describes them
(section 3): one GroupRow followed by one ListRow per member
NodeDefList. -/
def group_rows (t : groupman_t) (gd : groupdef_t) : List chooser_node_t :=
  gd_row t gd :: gd.nodegroups.map (nl_row t gd)

/-- The concatenated rows of a sequence of group definitions, following
the spec wording of the fixed pre-order. -/
def groups_rows (t : groupman_t) : List groupdef_t → List chooser_node_t
  | [] => []
  | gd :: rest => group_rows t gd ++ groups_rows t rest

/-- The full SelectableList of a loaded tree as the spec describes it
(section 3): one FileRow, then for each GroupDef one GroupRow followed
by one ListRow per member NodeDefList. -/
def rows_spec_preorder (t : groupman_t) : List chooser_node_t :=
  file_row t :: groups_rows t t.groups

/-- The node ids of all node definition lists of one node group list,
in order. -/
def ngl_nids : nodegroup_listp_t → List Int
  | [] => []
  | nl :: rest => nl.map (fun nd => nd.nid) ++ ngl_nids rest

/-- The node ids reachable from a sequence of group definitions. -/
def groups_nids : List groupdef_t → List Int
  | [] => []
  | gd :: rest => ngl_nids gd.nodegroups ++ groups_nids rest

/-- The node ids reachable from the whole loaded tree. -/
def tree_nids (t : groupman_t) : List Int :=
  groups_nids t.groups

/-- The inner loop shared by the chnt_gm and chnt_gd cases of
gschooser_t::enter (plugin.cpp lines 490-503 and 533-546): draw a new
color variant via get_color_anyway for each node definition list and
record one assignment per member node id, threading the generator
state. The result is the ordered assignment sequence together with the
final generator state. -/
def color_ngl (cg : colorgen_t) (cv : colorvargen_t) :
    nodegroup_listp_t → List (Int × bgcolor_t) × colorgen_t × colorvargen_t
  | [] => ([], cg, cv)
  | nl :: rest =>
      let r := get_color_anyway cg cv
      let rec2 := color_ngl r.2.1 r.2.2 rest
      (nl.map (fun nd => (nd.nid, r.1)) ++ rec2.1, rec2.2)

/-- The outer loop of the chnt_gm case of gschooser_t::enter
(plugin.cpp lines 480-504): for each group definition advance the base
color with get_colorvar (the returned flag is ignored by the code) and
color its node group list. -/
def color_groups (cg : colorgen_t) (cv : colorvargen_t) :
    List groupdef_t → List (Int × bgcolor_t) × colorgen_t × colorvargen_t
  | [] => ([], cg, cv)
  | gd :: rest =>
      let q := cg.get_colorvar cv
      let r1 := color_ngl q.2.1 q.2.2 gd.nodegroups
      let r2 := color_groups r1.2.1 r1.2.2 rest
      (r1.1 ++ r2.1, r2.2)

/-- The assignment sequence produced by the chnt_gm case of
gschooser_t::enter for a whole tree, starting from the fresh DECL_CG
generator state. -/
def color_all_groups (bases variants : Nat) (groups : List groupdef_t) :
    List (Int × bgcolor_t) :=
  (color_groups (fresh_cg bases variants) fresh_cv groups).1

/-- Result of gschooser_t::enter: either the updated chooser state
together with the flag recording whether refresh_viewer was called on
the graph view, or the marker that the code dereferenced an invalid
pointer on this path. -/
inductive enter_result
  | ok (s : gschooser_state) (refreshed : Bool)
  | bad_deref
  deriving DecidableEq, Inhabited

/-- gschooser_t::enter (plugin.cpp lines 466-553), parametrized by the
palette dimensions of the DECL_CG generator. Guard: a non selection or
an index beyond the row count returns immediately. chnt_gm walks all
groups of the chooser's gm (dereferencing it, hence bad_deref when it
is not valid), writing one assignment per reachable node id into
gr->sel_nodes without clearing it and without requesting a refresh;
gr is only dereferenced when at least one assignment happens. chnt_nl
and chnt_gd first bail out when gr or gr->gv is NULL, then clear
sel_nodes, recolor from a fresh generator and request a soft refresh. -/
def enter (bases variants : Nat) (s : gschooser_state) (n : Nat) :
    enter_result :=
  if n = 0 ∨ s.ch_nodes.length < n then enter_result.ok s false
  else
    let chn := s.ch_nodes.getD (n - 1) default
    match chn.type with
    | chooser_node_type_t.chnt_gm =>
        match s.gm with
        | gm_ptr.valid t =>
            let asg := color_all_groups bases variants t.groups
            match s.gr with
            | none =>
                if asg.isEmpty then enter_result.ok s false
                else enter_result.bad_deref
            | some g =>
                let g2 := { g with sel_nodes := applyAssigns g.sel_nodes asg }
                enter_result.ok { s with gr := some g2 } false
        | _ => enter_result.bad_deref
    | chooser_node_type_t.chnt_nl =>
        match s.gr with
        | none => enter_result.ok s false
        | some g =>
            if g.gv = false then enter_result.ok s false
            else
              match chn.nl with
              | none => enter_result.bad_deref
              | some L =>
                  let q := (fresh_cg bases variants).get_colorvar fresh_cv
                  let r := get_color_anyway q.2.1 q.2.2
                  let asg := L.map (fun nd => (nd.nid, r.1))
                  let g2 := { g with sel_nodes := applyAssigns [] asg }
                  enter_result.ok { s with gr := some g2 } true
    | chooser_node_type_t.chnt_gd =>
        match s.gr with
        | none => enter_result.ok s false
        | some g =>
            if g.gv = false then enter_result.ok s false
            else
              match chn.ngl with
              | none => enter_result.bad_deref
              | some ngl =>
                  let q := (fresh_cg bases variants).get_colorvar fresh_cv
                  let r1 := color_ngl q.2.1 q.2.2 ngl
                  let g2 := { g with sel_nodes := applyAssigns [] r1.1 }
                  enter_result.ok { s with gr := some g2 } true

/-- Concrete tree for exercising the FileRow selection: one group with
one node definition list containing node id 1. -/
def C1tree : groupman_t :=
  { source_file := "f1.bbgroup",
    groups := [{ id := "g1", groupname := "G1",
                 nodegroups := [[{ nid := 1, start := 16, end_ea := 32 }]] }] }

/-- Graph context holding a leftover highlight entry for node id 99
from a previous selection. -/
def C1g : grdata_t :=
  { node_map := [(1, "n1")], ea := 16, cur_node := 0, gv := true,
    sel_nodes := [(99, 5)], form := true,
    refresh_mode := refresh_modes_e.rfm_soft }

/-- Chooser state showing C1tree with the graph view attached. -/
def C1state : gschooser_state :=
  { ch_nodes := rows_spec_preorder C1tree, gr := some C1g,
    gm := gm_ptr.valid C1tree }

/-- Graph context with an empty node_map and a leftover highlight entry
for node id 5, about to be rebuilt. -/
def C2g : grdata_t :=
  { node_map := [], ea := 100, cur_node := 0, gv := true,
    sel_nodes := [(5, 7)], form := true,
    refresh_mode := refresh_modes_e.rfm_soft }

/-- A converter output that does not contain node id 5. -/
def C2conv : Nat → gnodemap_t := fun _ => [(1, "n1")]

/-- Concrete previously loaded tree. -/
def C3tree : groupman_t :=
  { source_file := "f1.bbgroup",
    groups := [{ id := "g1", groupname := "G1",
                 nodegroups := [[{ nid := 1, start := 16, end_ea := 32 }]] }] }

/-- Chooser state with C3tree loaded and its rows built. -/
def C3state : gschooser_state :=
  { ch_nodes := rows_spec_preorder C3tree, gr := none,
    gm := gm_ptr.valid C3tree }

/-- A group file parser that always fails. -/
def C3parse : String → Option groupman_t := fun _ => none

/-- Tree of the first loaded file. -/
def C4told : groupman_t :=
  { source_file := "v1.bbgroup",
    groups := [{ id := "g1", groupname := "G1",
                 nodegroups := [[{ nid := 1, start := 16, end_ea := 32 }]] }] }

/-- Tree of the second loaded file. -/
def C4tnew : groupman_t :=
  { source_file := "v2.bbgroup",
    groups := [{ id := "g2", groupname := "G2",
                 nodegroups := [[{ nid := 2, start := 48, end_ea := 64 }]] }] }

/-- Chooser state after the first load. -/
def C4state : gschooser_state :=
  { ch_nodes := rows_spec_preorder C4told, gr := none,
    gm := gm_ptr.valid C4told }

/-- A parser that successfully loads the second tree. -/
def C4parse : String → Option groupman_t := fun _ => some C4tnew

/-- Concrete node definition list with ids 1 and 2. -/
def C5list : nodedef_list_t :=
  [{ nid := 1, start := 16, end_ea := 32 },
   { nid := 2, start := 48, end_ea := 64 }]

/-- A chnt_nl chooser row referencing C5list. -/
def C5row : chooser_node_t :=
  { type := chooser_node_type_t.chnt_nl, gm := none, gd := none,
    ngl := none, nl := some C5list }

/-- Graph context with a stale highlight entry, view attached. -/
def C5g : grdata_t :=
  { node_map := [], ea := 0, cur_node := 0, gv := true,
    sel_nodes := [(9, 9)], form := true,
    refresh_mode := refresh_modes_e.rfm_soft }

/-- Chooser state holding the single chnt_nl row. -/
def C5state : gschooser_state :=
  { ch_nodes := [C5row], gr := some C5g, gm := gm_ptr.null }

/-- Concrete tree with two groups holding two and one node definition
lists respectively. -/
def C6tree : groupman_t :=
  { source_file := "main.bbgroup",
    groups := [{ id := "g1", groupname := "G1",
                 nodegroups := [[{ nid := 1, start := 0, end_ea := 1 }],
                                [{ nid := 2, start := 2, end_ea := 3 }]] },
               { id := "g2", groupname := "G2",
                 nodegroups := [[{ nid := 3, start := 4, end_ea := 5 }]] }] }

/-- A parser that loads C6tree. -/
def C6parse : String → Option groupman_t := fun _ => some C6tree

/-- A fresh chooser state with no rows, as built by the constructor. -/
def C6state : gschooser_state :=
  { ch_nodes := [], gr := none, gm := gm_ptr.null }

/-- Graph context with a built node map in soft refresh mode. -/
def C8g : grdata_t :=
  { node_map := [(1, "a")], ea := 0, cur_node := 0, gv := true,
    sel_nodes := [], form := true,
    refresh_mode := refresh_modes_e.rfm_soft }

/-- An arbitrary converter output for the idempotence check. -/
def C8conv : Nat → gnodemap_t := fun _ => [(7, "other")]

/-- A live graph context about to receive the destroy notification. -/
def C9g : grdata_t :=
  { node_map := [(1, "a")], ea := 0, cur_node := 2, gv := true,
    sel_nodes := [(1, 3)], form := true,
    refresh_mode := refresh_modes_e.rfm_soft }

/-- A chnt_gd chooser row. -/
def C10row : chooser_node_t :=
  { type := chooser_node_type_t.chnt_gd, gm := none, gd := none,
    ngl := some [[{ nid := 1, start := 0, end_ea := 1 }]], nl := none }

/-- Chooser state holding the chnt_gd row with no graph view attached. -/
def C10state : gschooser_state :=
  { ch_nodes := [C10row], gr := none, gm := gm_ptr.null }

/-- Looking up the key just assigned yields the assigned value. -/
theorem assocFind_assocSet_self {β : Type} (m : List (Int × β)) (k : Int)
    (v : β) : assocFind (assocSet m k v) k = some v := by
  induction m with
  | nil => simp [assocSet, assocFind]
  | cons p rest ih =>
      obtain ⟨k1, v1⟩ := p
      by_cases h : k1 = k
      · simp [assocSet, h, assocFind]
      · simp [assocSet, h, assocFind, ih]

/-- Assigning one key leaves lookups of other keys unchanged. -/
theorem assocFind_assocSet_ne {β : Type} (m : List (Int × β)) (k k2 : Int)
    (v : β) (h : k2 ≠ k) :
    assocFind (assocSet m k v) k2 = assocFind m k2 := by
  induction m with
  | nil => simp [assocSet, assocFind, Ne.symm h]
  | cons p rest ih =>
      obtain ⟨k1, v1⟩ := p
      by_cases h1 : k1 = k
      · subst h1
        simp [assocSet, assocFind, Ne.symm h]
      · by_cases h2 : k1 = k2
        · simp [assocSet, assocFind, h1, h2, h]
        · simp [assocSet, assocFind, h1, h2, ih]

/-- A sequence of assignments leaves lookups of untouched keys
unchanged. -/
theorem assocFind_applyAssigns_not_mem {β : Type} (asg : List (Int × β)) :
    ∀ (m : List (Int × β)) (k : Int), k ∉ asg.map Prod.fst →
      assocFind (applyAssigns m asg) k = assocFind m k := by
  induction asg with
  | nil => intro m k _; rfl
  | cons p rest ih =>
      intro m k h
      obtain ⟨k1, v1⟩ := p
      simp only [List.map_cons, List.mem_cons] at h
      push_neg at h
      show assocFind (applyAssigns (assocSet m k1 v1) rest) k = assocFind m k
      rw [ih _ _ h.2, assocFind_assocSet_ne _ _ _ _ h.1]

/-- After a sequence of assignments, a key that was assigned maps to a
value that one of the assignments carried. -/
theorem assocFind_applyAssigns_mem {β : Type} (asg : List (Int × β)) :
    ∀ (m : List (Int × β)) (k : Int), k ∈ asg.map Prod.fst →
      ∃ v, assocFind (applyAssigns m asg) k = some v ∧ (k, v) ∈ asg := by
  induction asg with
  | nil => intro m k h; simp at h
  | cons p rest ih =>
      intro m k h
      obtain ⟨k1, v1⟩ := p
      by_cases hr : k ∈ rest.map Prod.fst
      · obtain ⟨v, hv, hmem⟩ := ih (assocSet m k1 v1) k hr
        exact ⟨v, hv, List.mem_cons_of_mem _ hmem⟩
      · have hk : k = k1 := by
          simp only [List.map_cons, List.mem_cons] at h
          tauto
        subst hk
        refine ⟨v1, ?_, List.mem_cons_self _ _⟩
        show assocFind (applyAssigns (assocSet m k v1) rest) k = some v1
        rw [assocFind_applyAssigns_not_mem rest _ _ hr, assocFind_assocSet_self]

/-- When every assignment in the sequence carries the same value, an
assigned key maps to exactly that value. -/
theorem assocFind_applyAssigns_const {β : Type} (asg : List (Int × β))
    (m : List (Int × β)) (k : Int) (c : β)
    (hall : ∀ p ∈ asg, p.2 = c) (h : k ∈ asg.map Prod.fst) :
    assocFind (applyAssigns m asg) k = some c := by
  obtain ⟨v, hv, hmem⟩ := assocFind_applyAssigns_mem asg m k h
  have hc := hall _ hmem
  rw [hv]
  simp only at hc
  rw [hc]

/-- Folding qvector push_back over a list appends the mapped rows. -/
theorem foldl_push_back {α β : Type} (f : α → β) (l : List α) :
    ∀ acc : List β, l.foldl (fun a x => a ++ [f x]) acc = acc ++ l.map f := by
  induction l with
  | nil => intro acc; simp
  | cons x xs ih =>
      intro acc
      simp only [List.foldl_cons, List.map_cons, ih, List.append_assoc,
        List.singleton_append]

/-- The nested push_back loop of load_file produces the pre-order rows
of the spec appended to the prior vector content. -/
theorem load_rows_loop_eq (t : groupman_t) (gs : List groupdef_t) :
    ∀ acc : List chooser_node_t,
      gs.foldl
        (fun acc gd =>
          gd.nodegroups.foldl (fun acc2 nl => acc2 ++ [nl_row t gd nl])
            (acc ++ [gd_row t gd]))
        acc
      = acc ++ groups_rows t gs := by
  induction gs with
  | nil => intro acc; simp [groups_rows]
  | cons gd rest ih =>
      intro acc
      simp only [List.foldl_cons]
      rw [foldl_push_back, ih]
      simp [groups_rows, group_rows, List.append_assoc]

/-- On a successful parse, load_file marks the new tree loaded and
appends its pre-order rows to the existing vector (a restatement of
the push_back loop through the spec side row list). -/
theorem load_file_success (parse : String → Option groupman_t)
    (s : gschooser_state) (fn : String) (t : groupman_t)
    (h : parse fn = some t) :
    load_file parse s fn =
      ({ s with gm := gm_ptr.valid t,
                ch_nodes := s.ch_nodes ++ rows_spec_preorder t }, true) := by
  simp only [load_file, h]
  rw [load_rows_loop_eq]
  simp [rows_spec_preorder, List.append_assoc]

theorem gca_fuel2_spec (cg : colorgen_t) (cv : colorvargen_t)
    (hb : 1 ≤ cg.bases) (hv : 1 ≤ cg.variants) :
    ∃ r, get_color_anyway_fuel 2 cg cv = some r ∧ r.1 ≠ 0 ∧
      r.2.1.bases = cg.bases ∧ r.2.1.variants = cg.variants := by
  have hb0 : 0 < cg.bases := hb
  have hv0 : 0 < cg.variants := hv
  by_cases h1 : cv.used < cv.total
  · refine ⟨(cv.base * cv.total + cv.used + 1, cg,
      { cv with used := cv.used + 1 }), ?_, Nat.succ_ne_zero _, rfl, rfl⟩
    simp [get_color_anyway_fuel, colorvargen_t.get_color, h1]
  · by_cases h2 : cg.base_idx < cg.bases
    · refine ⟨(cg.base_idx * cg.variants + 0 + 1,
        { cg with base_idx := cg.base_idx + 1 },
        { base := cg.base_idx, total := cg.variants, used := 0 + 1 }),
        ?_, Nat.succ_ne_zero _, rfl, rfl⟩
      simp [get_color_anyway_fuel, colorvargen_t.get_color,
        colorgen_t.get_colorvar, h1, h2, hv0]
    · refine ⟨(0 * cg.variants + 0 + 1,
        { cg with base_idx := 0 + 1 },
        { base := 0, total := cg.variants, used := 0 + 1 }),
        ?_, Nat.succ_ne_zero _, rfl, rfl⟩
      simp [get_color_anyway_fuel, colorvargen_t.get_color,
        colorgen_t.get_colorvar, colorgen_t.rewind, h1, h2, hv0, hb0]
/-- With an empty palette (no base or no variants) and an exhausted
variant generator, the get_color_anyway loop never finishes, whatever
the iteration budget. -/
theorem gca_fuel_empty : ∀ (fuel : Nat) (cg : colorgen_t)
    (cv : colorvargen_t), (cg.bases = 0 ∨ cg.variants = 0) →
    cv.total ≤ cv.used → get_color_anyway_fuel fuel cg cv = none := by
  intro fuel
  induction fuel with
  | zero => intro cg cv _ _; rfl
  | succ fuel ih =>
      intro cg cv hpal hcv
      have h1 : ¬ cv.used < cv.total := by omega
      rcases hpal with h | h
      · have h2 : ¬ cg.base_idx < cg.bases := by omega
        simp [get_color_anyway_fuel, colorvargen_t.get_color,
          colorgen_t.get_colorvar, colorgen_t.rewind, h1, h2, h]
        exact ih _ _ (Or.inl rfl) hcv
      · by_cases h2 : cg.base_idx < cg.bases
        · simp [get_color_anyway_fuel, colorvargen_t.get_color,
            colorgen_t.get_colorvar, h1, h2, h]
          exact ih _ _ (Or.inr rfl) (by simp)
        · by_cases h3 : 0 < cg.bases
          · simp [get_color_anyway_fuel, colorvargen_t.get_color,
              colorgen_t.get_colorvar, colorgen_t.rewind, h1, h2, h3, h]
            exact ih _ _ (Or.inr rfl) (by simp)
          · simp [get_color_anyway_fuel, colorvargen_t.get_color,
              colorgen_t.get_colorvar, colorgen_t.rewind, h1, h2, h3, h]
            exact ih _ _ (Or.inr rfl) hcv
/-- The get_color_anyway loop never changes the palette dimensions of
the generator, whatever the fuel. -/
theorem gca_fuel_preserves : ∀ (fuel : Nat) (cg : colorgen_t)
    (cv : colorvargen_t) (r : bgcolor_t × colorgen_t × colorvargen_t),
    get_color_anyway_fuel fuel cg cv = some r →
    r.2.1.bases = cg.bases ∧ r.2.1.variants = cg.variants := by
  intro fuel
  induction fuel with
  | zero => intro cg cv r h; exact absurd h (by simp [get_color_anyway_fuel])
  | succ fuel ih =>
      intro cg cv r h
      by_cases h1 : cv.used < cv.total
      · simp [get_color_anyway_fuel, colorvargen_t.get_color, h1] at h
        rw [← h]
        exact ⟨rfl, rfl⟩
      · by_cases h2 : cg.base_idx < cg.bases
        · simp [get_color_anyway_fuel, colorvargen_t.get_color,
            colorgen_t.get_colorvar, h1, h2] at h
          have hh := ih _ _ _ h
          exact hh
        · by_cases h3 : 0 < cg.bases
          · simp [get_color_anyway_fuel, colorvargen_t.get_color,
              colorgen_t.get_colorvar, colorgen_t.rewind, h1, h2, h3] at h
            have hh := ih _ _ _ h
            exact hh
          · simp [get_color_anyway_fuel, colorvargen_t.get_color,
              colorgen_t.get_colorvar, colorgen_t.rewind, h1, h2, h3] at h
            have hh := ih _ _ _ h
            exact hh
/-- get_color_anyway preserves the palette dimensions. -/
theorem gca_preserves (cg : colorgen_t) (cv : colorvargen_t) :
    (get_color_anyway cg cv).2.1.bases = cg.bases ∧
    (get_color_anyway cg cv).2.1.variants = cg.variants := by
  unfold get_color_anyway
  cases heq : get_color_anyway_fuel 2 cg cv with
  | none => exact ⟨rfl, rfl⟩
  | some r => exact gca_fuel_preserves 2 cg cv r heq

/-- With a non empty palette, get_color_anyway returns a non sentinel
color. -/
theorem gca_nonzero (cg : colorgen_t) (cv : colorvargen_t)
    (hb : 1 ≤ cg.bases) (hv : 1 ≤ cg.variants) :
    (get_color_anyway cg cv).1 ≠ 0 := by
  obtain ⟨r, heq, h0, _, _⟩ := gca_fuel2_spec cg cv hb hv
  unfold get_color_anyway
  rw [heq]
  exact h0

/-- With a non empty palette, get_color_anyway computes exactly the
result the loop reaches within two iterations. -/
theorem gca_eq_fuel2 (cg : colorgen_t) (cv : colorvargen_t)
    (hb : 1 ≤ cg.bases) (hv : 1 ≤ cg.variants) :
    get_color_anyway_fuel 2 cg cv = some (get_color_anyway cg cv) := by
  obtain ⟨r, heq, _, _, _⟩ := gca_fuel2_spec cg cv hb hv
  unfold get_color_anyway
  rw [heq]

/-- get_colorvar preserves the palette dimensions of the generator. -/
theorem get_colorvar_preserves (cg : colorgen_t) (cv : colorvargen_t) :
    ((cg.get_colorvar cv).2.1).bases = cg.bases ∧
    ((cg.get_colorvar cv).2.1).variants = cg.variants := by
  unfold colorgen_t.get_colorvar
  by_cases h : cg.base_idx < cg.bases
  · simp [h]
  · simp [h]

/-- The keys of the assignments of the inner coloring loop are exactly
the member node ids of the node group list, in order. -/
theorem color_ngl_keys (ngl : nodegroup_listp_t) :
    ∀ (cg : colorgen_t) (cv : colorvargen_t),
      ((color_ngl cg cv ngl).1).map Prod.fst = ngl_nids ngl := by
  induction ngl with
  | nil => intro cg cv; rfl
  | cons nl rest ih =>
      intro cg cv
      simp [color_ngl, ngl_nids, ih, List.map_map, Function.comp]

/-- The inner coloring loop preserves the palette dimensions. -/
theorem color_ngl_preserves (ngl : nodegroup_listp_t) :
    ∀ (cg : colorgen_t) (cv : colorvargen_t),
      (color_ngl cg cv ngl).2.1.bases = cg.bases ∧
      (color_ngl cg cv ngl).2.1.variants = cg.variants := by
  induction ngl with
  | nil => intro cg cv; exact ⟨rfl, rfl⟩
  | cons nl rest ih =>
      intro cg cv
      have h1 := gca_preserves cg cv
      have h2 := ih (get_color_anyway cg cv).2.1 (get_color_anyway cg cv).2.2
      simp only [color_ngl]
      exact ⟨h2.1.trans h1.1, h2.2.trans h1.2⟩

/-- With a non empty palette, every color the inner loop assigns is a
non sentinel color. -/
theorem color_ngl_nonzero (ngl : nodegroup_listp_t) :
    ∀ (cg : colorgen_t) (cv : colorvargen_t), 1 ≤ cg.bases →
      1 ≤ cg.variants → ∀ p ∈ (color_ngl cg cv ngl).1, p.2 ≠ 0 := by
  induction ngl with
  | nil => intro cg cv _ _ p hp; simp [color_ngl] at hp
  | cons nl rest ih =>
      intro cg cv hb hv p hp
      simp only [color_ngl, List.mem_append] at hp
      rcases hp with hp | hp
      · obtain ⟨nd, _, hnd⟩ := List.mem_map.mp hp
        rw [← hnd]
        exact gca_nonzero cg cv hb hv
      · have hpre := gca_preserves cg cv
        exact ih (get_color_anyway cg cv).2.1 (get_color_anyway cg cv).2.2
          (hpre.1.symm ▸ hb) (hpre.2.symm ▸ hv) p hp

/-- The keys of the assignments of the full group walk are exactly the
reachable node ids, in order. -/
theorem color_groups_keys (gs : List groupdef_t) :
    ∀ (cg : colorgen_t) (cv : colorvargen_t),
      ((color_groups cg cv gs).1).map Prod.fst = groups_nids gs := by
  induction gs with
  | nil => intro cg cv; rfl
  | cons gd rest ih =>
      intro cg cv
      simp [color_groups, groups_nids, ih, color_ngl_keys]

/-- With a non empty palette, every color the full group walk assigns
is a non sentinel color. -/
theorem color_groups_nonzero (gs : List groupdef_t) :
    ∀ (cg : colorgen_t) (cv : colorvargen_t), 1 ≤ cg.bases →
      1 ≤ cg.variants → ∀ p ∈ (color_groups cg cv gs).1, p.2 ≠ 0 := by
  induction gs with
  | nil => intro cg cv _ _ p hp; simp [color_groups] at hp
  | cons gd rest ih =>
      intro cg cv hb hv p hp
      simp only [color_groups, List.mem_append] at hp
      have hq := get_colorvar_preserves cg cv
      rcases hp with hp | hp
      · exact color_ngl_nonzero gd.nodegroups _ _
          (hq.1.symm ▸ hb) (hq.2.symm ▸ hv) p hp
      · have hngl := color_ngl_preserves gd.nodegroups
          (cg.get_colorvar cv).2.1 (cg.get_colorvar cv).2.2
        refine ih _ _ ?_ ?_ p hp
        · rw [hngl.1, hq.1]; exact hb
        · rw [hngl.2, hq.2]; exact hv

/-- The rows of a group definition sequence are one group row plus one
list row per member node definition list each. -/
theorem groups_rows_length (t : groupman_t) (gs : List groupdef_t) :
    (groups_rows t gs).length =
      (gs.map (fun gd => 1 + gd.nodegroups.length)).sum := by
  induction gs with
  | nil => rfl
  | cons gd rest ih =>
      simp [groups_rows, group_rows, ih]
      omega

/-- The spec side pre-order row list has one file row plus, per group,
one group row plus one row per member node definition list. -/
theorem rows_spec_preorder_length (t : groupman_t) :
    (rows_spec_preorder t).length =
      1 + (t.groups.map (fun gd => 1 + gd.nodegroups.length)).sum := by
  simp [rows_spec_preorder, groups_rows_length, Nat.add_comm]

/-- C2, counterexample. A draw pull on an empty node_map rebuilds
node_map from the converter but leaves the highlight map untouched:
the stale highlight entry for node id 5 survives the rebuild although
the rebuilt node_map has no node 5, so the rebuild neither clears the
highlight map nor re-establishes the containment invariant. -/
theorem C2_counterexample :
    (gr_refresh C2conv C2g).node_map = [(1, "n1")] ∧
    (gr_refresh C2conv C2g).sel_nodes ≠ [] ∧
    assocFind (gr_refresh C2conv C2g).sel_nodes 5 = some 7 ∧
    assocFind (gr_refresh C2conv C2g).node_map 5 = none := by
  refine ⟨rfl, ?_, rfl, rfl⟩
  decide

/-- C2, amended. A draw pull that rebuilds (node_map empty or rebuild
mode) replaces node_map entirely with the output of the external
converter for the owner function, but does not clear the highlight
map: sel_nodes is exactly what it was before the pull. -/
theorem C2_rebuild_keeps_highlight (conv : Nat → gnodemap_t)
    (g : grdata_t)
    (h : g.node_map.isEmpty ∨ g.refresh_mode = refresh_modes_e.rfm_rebuild) :
    gr_refresh conv g = { g with node_map := conv g.ea } ∧
    (gr_refresh conv g).sel_nodes = g.sel_nodes := by
  constructor
  · unfold gr_refresh
    rw [if_pos h]
  · unfold gr_refresh
    rw [if_pos h]

/-- C2, witness for the amended theorem at the concrete rebuild
scenario. -/
theorem C2_rebuild_keeps_highlight_witness :
    (C2g.node_map.isEmpty ∨ C2g.refresh_mode = refresh_modes_e.rfm_rebuild) ∧
    (gr_refresh C2conv C2g = { C2g with node_map := C2conv C2g.ea } ∧
     (gr_refresh C2conv C2g).sel_nodes = C2g.sel_nodes) :=
  ⟨Or.inl (by decide), C2_rebuild_keeps_highlight C2conv C2g (Or.inl (by decide))⟩

/-- C3, counterexample. With a tree already loaded, a failing parse
does not leave the chooser state unchanged: load_file has already
deleted the previous group manager before parsing, so the gm pointer
ends up dangling instead of still holding the prior tree, while the
stale rows keep referencing the destroyed tree. -/
theorem C3_counterexample :
    (load_file C3parse C3state "bad.bbgroup").2 = false ∧
    C3state.gm = gm_ptr.valid C3tree ∧
    (load_file C3parse C3state "bad.bbgroup").1.gm = gm_ptr.dangling ∧
    (load_file C3parse C3state "bad.bbgroup").1 ≠ C3state := by
  refine ⟨rfl, rfl, rfl, ?_⟩
  decide

/-- C3, amended. When parsing fails, load_file surfaces the failure by
returning false and leaves the row vector and graph pointer unchanged,
but the previously loaded tree does not remain in use: it was already
deleted before the parse attempt and the gm pointer is left dangling. -/
theorem C3_parse_failure (parse : String → Option groupman_t)
    (s : gschooser_state) (fn : String) (h : parse fn = none) :
    (load_file parse s fn).2 = false ∧
    (load_file parse s fn).1.ch_nodes = s.ch_nodes ∧
    (load_file parse s fn).1.gr = s.gr ∧
    (load_file parse s fn).1.gm = gm_ptr.dangling := by
  simp [load_file, h]

/-- C3, witness for the amended theorem at the concrete failing
parse. -/
theorem C3_parse_failure_witness :
    C3parse "bad.bbgroup" = none ∧
    ((load_file C3parse C3state "bad.bbgroup").2 = false ∧
     (load_file C3parse C3state "bad.bbgroup").1.ch_nodes = C3state.ch_nodes ∧
     (load_file C3parse C3state "bad.bbgroup").1.gr = C3state.gr ∧
     (load_file C3parse C3state "bad.bbgroup").1.gm = gm_ptr.dangling) :=
  ⟨rfl, C3_parse_failure C3parse C3state "bad.bbgroup" rfl⟩

/-- C4, counterexample. Loading a second file succeeds but the row
vector afterwards still contains the rows of the first file (load_file
only appends), so it does not contain only the rows derived from the
newly loaded tree. -/
theorem C4_counterexample :
    (load_file C4parse C4state "v2.bbgroup").2 = true ∧
    (load_file C4parse C4state "v2.bbgroup").1.ch_nodes ≠
      rows_spec_preorder C4tnew ∧
    file_row C4told ∈ (load_file C4parse C4state "v2.bbgroup").1.ch_nodes ∧
    file_row C4told ∉ rows_spec_preorder C4tnew := by
  refine ⟨rfl, ?_, ?_, ?_⟩ <;> decide

/-- C4, amended. A successful load appends the pre-order rows of the
newly loaded tree to the existing row vector without removing prior
rows; only when the vector was empty before the call (as it is at the
only call site, the chooser initializer) does the vector afterwards
hold exactly the new rows. -/
theorem C4_load_appends (parse : String → Option groupman_t)
    (s : gschooser_state) (fn : String) (t : groupman_t)
    (h : parse fn = some t) :
    (load_file parse s fn).2 = true ∧
    (load_file parse s fn).1.ch_nodes = s.ch_nodes ++ rows_spec_preorder t ∧
    (load_file parse s fn).1.gm = gm_ptr.valid t ∧
    (s.ch_nodes = [] →
      (load_file parse s fn).1.ch_nodes = rows_spec_preorder t) := by
  have hl := load_file_success parse s fn t h
  rw [hl]
  refine ⟨rfl, rfl, rfl, ?_⟩
  intro he
  rw [he]
  rfl

/-- C4, witness for the amended theorem at the concrete second load. -/
theorem C4_load_appends_witness :
    C4parse "v2.bbgroup" = some C4tnew ∧
    ((load_file C4parse C4state "v2.bbgroup").2 = true ∧
     (load_file C4parse C4state "v2.bbgroup").1.ch_nodes =
       C4state.ch_nodes ++ rows_spec_preorder C4tnew ∧
     (load_file C4parse C4state "v2.bbgroup").1.gm = gm_ptr.valid C4tnew ∧
     (C4state.ch_nodes = [] →
       (load_file C4parse C4state "v2.bbgroup").1.ch_nodes =
         rows_spec_preorder C4tnew)) :=
  ⟨rfl, C4_load_appends C4parse C4state "v2.bbgroup" C4tnew rfl⟩

/-- C6. Loading a group file into an empty chooser (the state at the
only call site of load_file) produces exactly the pre-order row list of
the spec, and the sizer afterwards reports one file row plus, per
group, one group row plus one row per member node definition list. -/
theorem C6_row_count (parse : String → Option groupman_t)
    (s : gschooser_state) (fn : String) (t : groupman_t)
    (hempty : s.ch_nodes = []) (h : parse fn = some t) :
    (load_file parse s fn).1.ch_nodes = rows_spec_preorder t ∧
    sizer (load_file parse s fn).1 =
      1 + (t.groups.map (fun gd => 1 + gd.nodegroups.length)).sum := by
  have hl := load_file_success parse s fn t h
  rw [hl]
  constructor
  · simp [hempty]
  · simp [sizer, hempty, rows_spec_preorder_length]

/-- C6, witness at the concrete two group tree: 1 + (1 + 2) + (1 + 1)
rows. -/
theorem C6_row_count_witness :
    C6state.ch_nodes = [] ∧ C6parse "main.bbgroup" = some C6tree ∧
    ((load_file C6parse C6state "main.bbgroup").1.ch_nodes =
       rows_spec_preorder C6tree ∧
     sizer (load_file C6parse C6state "main.bbgroup").1 =
       1 + (C6tree.groups.map (fun gd => 1 + gd.nodegroups.length)).sum) :=
  ⟨rfl, rfl, C6_row_count C6parse C6state "main.bbgroup" C6tree rfl rfl⟩

/-- C8. A draw pull in soft mode on a context whose node_map is already
built returns the context unchanged (the very same value, hence the
very same node_map), and so does any number of repeated pulls without
an intervening rebuild request. -/
theorem C8_soft_pull_identity (conv : Nat → gnodemap_t) (g : grdata_t)
    (h1 : g.node_map ≠ [])
    (h2 : g.refresh_mode = refresh_modes_e.rfm_soft) :
    gr_refresh conv g = g ∧ ∀ k : Nat, (gr_refresh conv)^[k] g = g := by
  have hfix : gr_refresh conv g = g := by
    unfold gr_refresh
    rw [if_neg]
    rintro (he | hm)
    · exact h1 (List.isEmpty_iff.mp he)
    · rw [h2] at hm
      exact absurd hm (by decide)
  exact ⟨hfix, fun k => Function.iterate_fixed hfix k⟩

/-- C8, witness at a concrete built soft mode context, pulled twice. -/
theorem C8_soft_pull_identity_witness :
    C8g.node_map ≠ [] ∧ C8g.refresh_mode = refresh_modes_e.rfm_soft ∧
    gr_refresh C8conv C8g = C8g ∧ (gr_refresh C8conv)^[2] C8g = C8g :=
  ⟨by decide, rfl,
   (C8_soft_pull_identity C8conv C8g (by decide) rfl).1,
   (C8_soft_pull_identity C8conv C8g (by decide) rfl).2 2⟩

/-- C9, counterexample. The destroy notification releases the context
(delete this) after nulling the owner back-reference; the transition is
not idempotent: a second destroy notification after teardown dispatches
on the already released allocation, modelled by the use-after-free
result none. -/
theorem C9_counterexample :
    gr_destroyed_event (some C9g) (some (some C9g)) =
      some ({ C9g with gv := false, form := false }, some none) ∧
    gr_destroyed_event none (some none) = none :=
  ⟨rfl, rfl⟩

/-- C9, amended. On the destroy notification a live context clears its
widget and window back-references, nulls the owner back-reference
exactly once when one is set (and touches nothing when parent_ref is
NULL), and releases itself; but the transition is not idempotent: the
handler has no guard, so a second destroy notification dispatches on
the already released allocation. -/
theorem C9_destroy_behavior (g : grdata_t) (ps : Option grdata_t) :
    gr_destroyed_event (some g) (some ps) =
      some ({ g with gv := false, form := false }, some none) ∧
    gr_destroyed_event (some g) none =
      some ({ g with gv := false, form := false }, none) ∧
    gr_destroyed_event none (some ps) = none ∧
    gr_destroyed_event none none = none :=
  ⟨rfl, rfl, rfl, rfl⟩

/-- C7. With a non empty palette (at least one base, at least one
variant per base) the get_color_anyway loop terminates within two
iterations and returns a non sentinel color; with an empty palette and
an exhausted variant generator (the state every generator reachable
from an empty palette is in, including the fresh DECL_CG one) the loop
runs forever: no iteration budget makes it finish. -/
theorem C7_color_anyway (cg : colorgen_t) (cv : colorvargen_t) :
    (1 ≤ cg.bases → 1 ≤ cg.variants →
      ∃ r, get_color_anyway_fuel 2 cg cv = some r ∧ r.1 ≠ 0) ∧
    ((cg.bases = 0 ∨ cg.variants = 0) → cv.total ≤ cv.used →
      ∀ fuel : Nat, get_color_anyway_fuel fuel cg cv = none) := by
  constructor
  · intro hb hv
    obtain ⟨r, heq, h0, _, _⟩ := gca_fuel2_spec cg cv hb hv
    exact ⟨r, heq, h0⟩
  · intro hpal hcv fuel
    exact gca_fuel_empty fuel cg cv hpal hcv

/-- C7, witness: a 2 by 3 palette yields a color within two iterations
from the fresh generator state, and the empty palette with zero bases
never finishes, not even with a budget of five iterations. -/
theorem C7_color_anyway_witness :
    (∃ r, get_color_anyway_fuel 2 (fresh_cg 2 3) fresh_cv = some r ∧
      r.1 ≠ 0) ∧
    get_color_anyway_fuel 5 (fresh_cg 0 3) fresh_cv = none :=
  ⟨(C7_color_anyway (fresh_cg 2 3) fresh_cv).1 (by decide) (by decide),
   (C7_color_anyway (fresh_cg 0 3) fresh_cv).2 (Or.inl rfl) (by decide) 5⟩

/-- C10. Selecting a chnt_nl or chnt_gd row while no graph view is
attached (the graph context pointer is null, or its viewer
back-reference is null) makes the enter handler a complete no-op: the
state is returned untouched, nothing is colored and no redraw is
requested. -/
theorem C10_detached_noop (bases variants n : Nat) (s : gschooser_state)
    (hn1 : 1 ≤ n) (hn2 : n ≤ s.ch_nodes.length)
    (hty : (s.ch_nodes.getD (n - 1) default).type =
             chooser_node_type_t.chnt_nl ∨
           (s.ch_nodes.getD (n - 1) default).type =
             chooser_node_type_t.chnt_gd)
    (hdet : s.gr = none ∨ ∃ g, s.gr = some g ∧ g.gv = false) :
    enter bases variants s n = enter_result.ok s false := by
  have hcond : ¬ (n = 0 ∨ s.ch_nodes.length < n) := by omega
  unfold enter
  rw [if_neg hcond]
  rcases hdet with hgr | ⟨g, hgr, hgv⟩
  · rcases hty with hty | hty
    · simp only [hty, hgr]
    · simp only [hty, hgr]
  · rcases hty with hty | hty
    · simp only [hty, hgr, hgv, if_pos]
    · simp only [hty, hgr, hgv, if_pos]

/-- C10, witness: selecting the concrete chnt_gd row with gr = NULL
changes nothing. -/
theorem C10_detached_noop_witness :
    C10state.gr = none ∧
    enter 8 4 C10state 1 = enter_result.ok C10state false :=
  ⟨rfl, C10_detached_noop 8 4 1 C10state (by decide) (by decide)
    (Or.inr (by decide)) (Or.inl rfl)⟩

/-- C5. Selecting a chnt_nl row with the graph view attached clears the
highlight map, draws one color via get_color_anyway, assigns that one
color to every node id of the referenced node definition list, and
requests a soft redraw: afterwards the highlight map yields that single
color on exactly the member ids and nothing on every other id. -/
theorem C5_listrow (bases variants : Nat) (s : gschooser_state)
    (g : grdata_t) (L : nodedef_list_t) (n : Nat)
    (hb : 1 ≤ bases) (hv : 1 ≤ variants)
    (hn1 : 1 ≤ n) (hn2 : n ≤ s.ch_nodes.length)
    (hty : (s.ch_nodes.getD (n - 1) default).type =
             chooser_node_type_t.chnt_nl)
    (hnl : (s.ch_nodes.getD (n - 1) default).nl = some L)
    (hgr : s.gr = some g) (hgv : g.gv = true) :
    ∃ clr g2, clr ≠ 0 ∧
      enter bases variants s n =
        enter_result.ok { s with gr := some g2 } true ∧
      g2.sel_nodes = applyAssigns [] (L.map (fun nd => (nd.nid, clr))) ∧
      (∀ k ∈ L.map (fun nd => nd.nid),
        assocFind g2.sel_nodes k = some clr) ∧
      (∀ k, k ∉ L.map (fun nd => nd.nid) →
        assocFind g2.sel_nodes k = none) := by
  have hcond : ¬ (n = 0 ∨ s.ch_nodes.length < n) := by omega
  have hpre := get_colorvar_preserves (fresh_cg bases variants) fresh_cv
  set clr := (get_color_anyway
      ((fresh_cg bases variants).get_colorvar fresh_cv).2.1
      ((fresh_cg bases variants).get_colorvar fresh_cv).2.2).1 with hclr
  set m2 := applyAssigns [] (L.map (fun nd => (nd.nid, clr))) with hm2
  refine ⟨clr, { g with sel_nodes := m2 }, ?_, ?_, rfl, ?_, ?_⟩
  · rw [hclr]
    apply gca_nonzero
    · rw [hpre.1]
      exact hb
    · rw [hpre.2]
      exact hv
  · unfold enter
    rw [if_neg hcond]
    simp only [hty, hnl, hgr, hgv]
    simp
  · intro k hk
    apply assocFind_applyAssigns_const
    · intro p hp
      obtain ⟨nd, _, hnd⟩ := List.mem_map.mp hp
      rw [← hnd]
    · simpa [List.map_map, Function.comp] using hk
  · intro k hk
    rw [assocFind_applyAssigns_not_mem]
    · rfl
    · simpa [List.map_map, Function.comp] using hk

/-- C5, witness at the concrete chnt_nl row with ids 1 and 2 and a
stale highlight entry for id 9. -/
theorem C5_listrow_witness :
    C5state.gr = some C5g ∧ C5g.gv = true ∧
    (∃ clr g2, clr ≠ 0 ∧
      enter 8 4 C5state 1 =
        enter_result.ok { C5state with gr := some g2 } true ∧
      g2.sel_nodes = applyAssigns [] (C5list.map (fun nd => (nd.nid, clr))) ∧
      (∀ k ∈ C5list.map (fun nd => nd.nid),
        assocFind g2.sel_nodes k = some clr) ∧
      (∀ k, k ∉ C5list.map (fun nd => nd.nid) →
        assocFind g2.sel_nodes k = none)) :=
  ⟨rfl, rfl, C5_listrow 8 4 C5state C5g C5list 1 (by decide) (by decide)
    (by decide) (by decide) (by decide) (by decide) rfl rfl⟩

/-- C1, counterexample. Selecting the FileRow of C1tree (reachable ids:
exactly node id 1) does not clear the highlight map: the stale entry
for id 99 left by a previous selection survives, so afterwards
highlight does not contain exactly the reachable ids; no redraw is
requested either. -/
theorem C1_counterexample :
    enter 8 4 C1state 1 =
      enter_result.ok
        { C1state with gr := some { C1g with sel_nodes := [(99, 5), (1, 1)] } }
        false ∧
    assocFind [(99, 5), (1, 1)] 99 = some 5 ∧
    ¬ (99 ∈ tree_nids C1tree) := by
  refine ⟨?_, rfl, ?_⟩ <;> decide

/-- C1, amended. Selecting a FileRow (chnt_gm row) with a valid loaded
tree and an attached graph context walks every group (one new base per
GroupDef, one variant drawn per NodeDefList) and writes one non
sentinel color for every reachable node id into the existing highlight
map without clearing it first: ids outside the tree keep whatever entry
they had, and no redraw is requested. -/
theorem C1_filerow_no_clear (bases variants : Nat) (s : gschooser_state)
    (g : grdata_t) (t : groupman_t) (n : Nat)
    (hb : 1 ≤ bases) (hv : 1 ≤ variants)
    (hn1 : 1 ≤ n) (hn2 : n ≤ s.ch_nodes.length)
    (hty : (s.ch_nodes.getD (n - 1) default).type =
             chooser_node_type_t.chnt_gm)
    (hgr : s.gr = some g) (hgm : s.gm = gm_ptr.valid t) :
    ∃ g2, enter bases variants s n =
        enter_result.ok { s with gr := some g2 } false ∧
      g2.sel_nodes =
        applyAssigns g.sel_nodes (color_all_groups bases variants t.groups) ∧
      (∀ nid ∈ tree_nids t,
        ∃ c, assocFind g2.sel_nodes nid = some c ∧ c ≠ 0) ∧
      (∀ nid, nid ∉ tree_nids t →
        assocFind g2.sel_nodes nid = assocFind g.sel_nodes nid) := by
  have hcond : ¬ (n = 0 ∨ s.ch_nodes.length < n) := by omega
  have hkeys : (color_all_groups bases variants t.groups).map Prod.fst =
      tree_nids t := color_groups_keys t.groups (fresh_cg bases variants) fresh_cv
  set m2 := applyAssigns g.sel_nodes (color_all_groups bases variants t.groups)
    with hm2
  refine ⟨{ g with sel_nodes := m2 }, ?_, rfl, ?_, ?_⟩
  · unfold enter
    rw [if_neg hcond]
    simp only [hty, hgm, hgr]
  · intro nid hmem
    have hin : nid ∈ (color_all_groups bases variants t.groups).map Prod.fst := by
      rw [hkeys]
      exact hmem
    obtain ⟨v, hfind, hpair⟩ :=
      assocFind_applyAssigns_mem (color_all_groups bases variants t.groups)
        g.sel_nodes nid hin
    refine ⟨v, hfind, ?_⟩
    exact color_groups_nonzero t.groups (fresh_cg bases variants) fresh_cv
      hb hv (nid, v) hpair
  · intro nid hnot
    apply assocFind_applyAssigns_not_mem
    rw [hkeys]
    exact hnot

/-- C1, witness for the amended theorem at the concrete FileRow
selection with the stale entry for id 99. -/
theorem C1_filerow_no_clear_witness :
    C1state.gr = some C1g ∧ C1state.gm = gm_ptr.valid C1tree ∧
    (∃ g2, enter 8 4 C1state 1 =
        enter_result.ok { C1state with gr := some g2 } false ∧
      g2.sel_nodes =
        applyAssigns C1g.sel_nodes (color_all_groups 8 4 C1tree.groups) ∧
      (∀ nid ∈ tree_nids C1tree,
        ∃ c, assocFind g2.sel_nodes nid = some c ∧ c ≠ 0) ∧
      (∀ nid, nid ∉ tree_nids C1tree →
        assocFind g2.sel_nodes nid = assocFind C1g.sel_nodes nid)) :=
  ⟨rfl, rfl, C1_filerow_no_clear 8 4 C1state C1g C1tree 1 (by decide)
    (by decide) (by decide) (by decide) (by decide) rfl rfl⟩
